import Mathlib

/-!
Verification of `src/ignite/handlers/early_stopping.py`: the
`NoImprovementHandler` patience tracker and its `EarlyStopping`
specialization, embedded shallowly.  Scores and `min_delta` are modelled
as rationals, the counter and `patience` as integers; raised Python
exceptions become an explicit error type; callback invocations performed
by `__call__` are recorded as an explicit event list.
-/

namespace Ignite

/-- A Python exception as raised by the validation code of the handler:
either a `TypeError` or a `ValueError`, with its message. -/
inductive PyError where
  | typeError (msg : String)
  | valueError (msg : String)
deriving DecidableEq, Repr

/-- Whether an error is a `TypeError` (as opposed to a `ValueError`). -/
def PyError.isTypeError : PyError → Bool
  | .typeError _ => true
  | .valueError _ => false

/-- An argument slot that Python checks with `callable(...)`: it either
holds a function value or is not callable. -/
inductive PyValue (α : Type) where
  | callable (f : α)
  | notCallable

/-- The `trainer` argument, which Python checks with
`isinstance(trainer, Engine)`. -/
inductive PyTrainerArg (E : Type) where
  | engine (e : E)
  | notEngine

/-- The state of a `NoImprovementHandler`, field for field as assigned
in `NoImprovementHandler.__init__`.  `E` is the engine type and `F` the
(opaque) type of the injected `pass_function`/`stop_function` values. -/
structure NoImprovementHandler (E F : Type) where
  patience : ℤ
  score_function : E → ℚ
  pass_function : F
  stop_function : F
  trainer : E
  counter : ℤ
  best_score : Option ℚ
  min_delta : ℚ
  cumulative_delta : Bool

/-- Constructor `NoImprovementHandler.__init__`: the eager validation checks in
source order, then the field initialisation (`counter = 0`,
`best_score = None`). -/
def NoImprovementHandler.init (E F : Type) (patience : ℤ)
    (score_function : PyValue (E → ℚ)) (pass_function stop_function : PyValue F)
    (trainer : PyTrainerArg E) (min_delta : ℚ) (cumulative_delta : Bool) :
    Except PyError (NoImprovementHandler E F) :=
  match score_function with
  | .notCallable => .error (.typeError "Argument score_function should be a function.")
  | .callable sf =>
    match pass_function with
    | .notCallable => .error (.typeError "Argument pass_function should be a function.")
    | .callable pf =>
      match stop_function with
      | .notCallable => .error (.typeError "Argument stop_function should be a function.")
      | .callable stf =>
        match trainer with
        | .notEngine => .error (.typeError "Argument trainer should be an instance of Engine.")
        | .engine tr =>
          if patience < 1 then
            .error (.valueError "Argument patience should be positive integer.")
          else if min_delta < 0 then
            .error (.valueError "Argument min_delta should not be a negative number.")
          else
            .ok { patience := patience, score_function := sf, pass_function := pf,
                  stop_function := stf, trainer := tr, counter := 0, best_score := none,
                  min_delta := min_delta, cumulative_delta := cumulative_delta }

/-- Method `NoImprovementHandler._update_state`: the three-branch update of
`best_score` and `counter` for an incoming score. -/
def NoImprovementHandler.updateState {E F : Type} (h : NoImprovementHandler E F)
    (score : ℚ) : NoImprovementHandler E F :=
  match h.best_score with
  | none => { h with best_score := some score }
  | some best =>
    if score ≤ best + h.min_delta then
      if ¬h.cumulative_delta ∧ best < score then
        { h with best_score := some score, counter := h.counter + 1 }
      else
        { h with counter := h.counter + 1 }
    else
      { h with best_score := some score, counter := 0 }

/-- One callback invocation performed by `__call__`: the function value
called and the argument it received. -/
inductive Invocation (E F : Type) where
  | callOn (f : F) (arg : E)
deriving DecidableEq, Repr

/-- The body of `NoImprovementHandler.__call__` after the score has been
computed: update the state, then invoke exactly one of the injected
callbacks on the stored trainer.  Returns the new state together with
the list of callback invocations performed. -/
def NoImprovementHandler.callWithScore {E F : Type} (h : NoImprovementHandler E F)
    (score : ℚ) : NoImprovementHandler E F × List (Invocation E F) :=
  let h' := h.updateState score
  if h'.patience ≤ h'.counter then
    (h', [.callOn h'.stop_function h'.trainer])
  else
    (h', [.callOn h'.pass_function h'.trainer])

/-- Method `NoImprovementHandler.__call__`: compute the score from the engine
via `score_function`, then proceed as `callWithScore`. -/
def NoImprovementHandler.call {E F : Type} (h : NoImprovementHandler E F)
    (engine : E) : NoImprovementHandler E F × List (Invocation E F) :=
  h.callWithScore (h.score_function engine)

/-- The value returned by `NoImprovementHandler.state_dict`: an ordered
dict with exactly the two keys `counter` and `best_score`. -/
structure StateDict where
  counter : ℤ
  best_score : Option ℚ
deriving DecidableEq, Repr

/-- Method `NoImprovementHandler.state_dict`. -/
def NoImprovementHandler.state_dict {E F : Type} (h : NoImprovementHandler E F) :
    StateDict :=
  { counter := h.counter, best_score := h.best_score }

/-- A mapping passed to `load_state_dict`: each of the two expected keys
may be present (with a value) or absent. -/
structure PyMapping where
  counter : Option ℤ
  best_score : Option (Option ℚ)

/-- The mapping holding exactly the two entries of a `StateDict`. -/
def StateDict.toMapping (s : StateDict) : PyMapping :=
  { counter := some s.counter, best_score := some s.best_score }

/-- Modelled from the spec: `Serializable.load_state_dict` (defined in
`ignite.base`, which is not part of the provided sources) is called by
`NoImprovementHandler.load_state_dict` before the fields are overwritten
and requires both keys, `counter` and `best_score`, to be present in the
provided mapping, raising an error for an absent key. -/
def requiredKeysPresent (m : PyMapping) : Except PyError Unit :=
  match m.counter with
  | none => .error (.valueError "Required state attribute counter is absent in provided state_dict")
  | some _ =>
    match m.best_score with
    | none => .error (.valueError "Required state attribute best_score is absent in provided state_dict")
    | some _ => .ok ()

/-- Method `NoImprovementHandler.load_state_dict`: after the base-class key
check (see `requiredKeysPresent`), overwrite `counter` and `best_score`
verbatim with the provided values. -/
def NoImprovementHandler.load_state_dict {E F : Type} (h : NoImprovementHandler E F)
    (m : PyMapping) : Except PyError (NoImprovementHandler E F) := do
  let _ ← requiredKeysPresent m
  match m.counter, m.best_score with
  | some c, some b => .ok { h with counter := c, best_score := b }
  | _, _ => .error (.valueError "Required state attribute is absent in provided state_dict")

/-- Running the handler on a list of scores, one `__call__` per score,
concatenating the callback invocations performed. -/
def NoImprovementHandler.runCalls {E F : Type} (h : NoImprovementHandler E F) :
    List ℚ → NoImprovementHandler E F × List (Invocation E F)
  | [] => (h, [])
  | s :: rest =>
    let r := h.callWithScore s
    let r2 := r.1.runCalls rest
    (r2.1, r.2 ++ r2.2)

/-! ### Helper lemmas characterising `updateState` branch by branch -/

theorem updateState_none {E F : Type} (h : NoImprovementHandler E F) (s : ℚ)
    (hb : h.best_score = none) :
    h.updateState s = { h with best_score := some s } := by
  unfold NoImprovementHandler.updateState
  rw [hb]

theorem updateState_noimp {E F : Type} (h : NoImprovementHandler E F) (s best : ℚ)
    (hb : h.best_score = some best) (hle : s ≤ best + h.min_delta) :
    h.updateState s =
      if ¬h.cumulative_delta ∧ best < s then
        { h with best_score := some s, counter := h.counter + 1 }
      else
        { h with counter := h.counter + 1 } := by
  unfold NoImprovementHandler.updateState
  rw [hb]
  simp only [if_pos hle]

theorem updateState_improve {E F : Type} (h : NoImprovementHandler E F) (s best : ℚ)
    (hb : h.best_score = some best) (hgt : best + h.min_delta < s) :
    h.updateState s = { h with best_score := some s, counter := 0 } := by
  unfold NoImprovementHandler.updateState
  rw [hb]
  simp only [if_neg (not_le.mpr hgt)]

theorem updateState_frame {E F : Type} (h : NoImprovementHandler E F) (s : ℚ) :
    (h.updateState s).patience = h.patience ∧
    (h.updateState s).score_function = h.score_function ∧
    (h.updateState s).pass_function = h.pass_function ∧
    (h.updateState s).stop_function = h.stop_function ∧
    (h.updateState s).trainer = h.trainer ∧
    (h.updateState s).min_delta = h.min_delta ∧
    (h.updateState s).cumulative_delta = h.cumulative_delta := by
  unfold NoImprovementHandler.updateState
  rcases hb : h.best_score with _ | best
  · exact ⟨rfl, rfl, rfl, rfl, rfl, rfl, rfl⟩
  · dsimp only
    split_ifs <;> exact ⟨rfl, rfl, rfl, rfl, rfl, rfl, rfl⟩

theorem callWithScore_fst {E F : Type} (h : NoImprovementHandler E F) (s : ℚ) :
    (h.callWithScore s).1 = h.updateState s := by
  unfold NoImprovementHandler.callWithScore
  dsimp only
  split <;> rfl

theorem call_fst {E F : Type} (h : NoImprovementHandler E F) (engine : E) :
    (h.call engine).1 = h.updateState (h.score_function engine) :=
  callWithScore_fst h (h.score_function engine)

/-! ### Claim theorems -/

/-- Claim C1: every `__call__`, after computing the score and updating the
internal state, performs exactly one callback invocation on the stored
trainer — `stop_function` when the updated counter has reached `patience`,
`pass_function` otherwise — and the decision step itself leaves the state
(in particular the counter) exactly as `_update_state` left it. -/
theorem call_decision_exactly_one {E F : Type} (h : NoImprovementHandler E F)
    (engine : E) :
    (h.call engine).1 = h.updateState (h.score_function engine) ∧
    (h.call engine).2 =
      [Invocation.callOn
        (if h.patience ≤ (h.updateState (h.score_function engine)).counter
         then h.stop_function else h.pass_function) h.trainer] := by
  obtain ⟨hp, _, hpf, hsf, htr, _, _⟩ := updateState_frame h (h.score_function engine)
  refine ⟨call_fst h engine, ?_⟩
  unfold NoImprovementHandler.call NoImprovementHandler.callWithScore
  dsimp only
  rw [← hp, ← hpf, ← hsf, ← htr]
  split_ifs <;> rfl

/-- Claim C10: every `__call__` mutates at most `counter` and `best_score`:
the configuration fields and the injected callables and trainer are
unchanged by every call, for every input. -/
theorem call_mutates_only_counter_best {E F : Type} (h : NoImprovementHandler E F)
    (engine : E) :
    (h.call engine).1.patience = h.patience ∧
    (h.call engine).1.score_function = h.score_function ∧
    (h.call engine).1.pass_function = h.pass_function ∧
    (h.call engine).1.stop_function = h.stop_function ∧
    (h.call engine).1.trainer = h.trainer ∧
    (h.call engine).1.min_delta = h.min_delta ∧
    (h.call engine).1.cumulative_delta = h.cumulative_delta := by
  rw [call_fst h engine]
  exact updateState_frame h (h.score_function engine)

/-- Claim C2: `_update_state` follows exactly the three-branch rule: with no
best score recorded, record the score as best and leave the counter alone;
with `score ≤ best + min_delta`, increment the counter by exactly 1 and
update best to the score exactly when `cumulative_delta` is off and the
score strictly exceeds best; with `score > best + min_delta`, record the
score as best and reset the counter to 0. -/
theorem updateState_three_branch {E F : Type} (h : NoImprovementHandler E F)
    (score : ℚ) :
    (h.best_score = none →
      (h.updateState score).best_score = some score ∧
      (h.updateState score).counter = h.counter) ∧
    (∀ best, h.best_score = some best →
      (score ≤ best + h.min_delta →
        (h.updateState score).counter = h.counter + 1 ∧
        (h.updateState score).best_score =
          some (if ¬h.cumulative_delta ∧ best < score then score else best)) ∧
      (best + h.min_delta < score →
        (h.updateState score).best_score = some score ∧
        (h.updateState score).counter = 0)) := by
  refine ⟨fun hb => ?_, fun best hb => ⟨fun hle => ?_, fun hgt => ?_⟩⟩
  · rw [updateState_none h score hb]
    exact ⟨rfl, rfl⟩
  · rw [updateState_noimp h score best hb hle]
    split_ifs with hc
    · exact ⟨rfl, rfl⟩
    · exact ⟨rfl, hb⟩
  · rw [updateState_improve h score best hb hgt]
    exact ⟨rfl, rfl⟩

/-- A concrete handler used to instantiate the claim theorems. -/
def sampleHandler : NoImprovementHandler ℚ Bool :=
  { patience := 3, score_function := id, pass_function := false, stop_function := true,
    trainer := 0, counter := 0, best_score := some 1, min_delta := 0,
    cumulative_delta := false }

/-- Witness for `updateState_three_branch` at a concrete handler and score. -/
theorem updateState_three_branch_witness :
    (sampleHandler.updateState (9/10)).counter = sampleHandler.counter + 1 ∧
    (sampleHandler.updateState (9/10)).best_score =
      some (if ¬sampleHandler.cumulative_delta ∧ (1 : ℚ) < 9/10 then (9/10 : ℚ) else 1) :=
  ((updateState_three_branch sampleHandler (9/10)).2 1 rfl).1 (by norm_num [sampleHandler])

/-- A callable score-function argument over `ℚ`-valued engines. -/
def validScoreFn : PyValue (ℚ → ℚ) := .callable id

/-- A trainer argument that is a valid engine instance. -/
def validTrainer : PyTrainerArg ℚ := .engine 0

/-- Counterexample to claim C3 as stated: with all three callbacks callable
and a valid trainer, construction with `patience = 0` is rejected with a
`ValueError`, not a type error. -/
theorem init_patience_zero_not_typeError :
    NoImprovementHandler.init ℚ Bool 0 validScoreFn (.callable false) (.callable true)
        validTrainer 0 false
      = .error (PyError.valueError "Argument patience should be positive integer.") ∧
    (PyError.valueError "Argument patience should be positive integer.").isTypeError
      = false :=
  ⟨rfl, rfl⟩

/-- Claim C3 (amended): construction fails eagerly, before any invocation,
with a `TypeError` when `score_function`, `pass_function` or `stop_function`
is not callable or when the trainer is not an `Engine` instance, and with a
`ValueError` when `patience < 1` or when `min_delta < 0`; the rejections of
`patience = 0`, `min_delta = -0.1` and a non-callable argument each raise a
distinct error. -/
theorem init_validation (E F : Type) (p : ℤ) (sf : E → ℚ) (pf stf : F) (tr : E)
    (pfArg stfArg : PyValue F) (trArg : PyTrainerArg E) (md : ℚ) (cd : Bool) :
    (NoImprovementHandler.init E F p .notCallable pfArg stfArg trArg md cd =
      .error (.typeError "Argument score_function should be a function.")) ∧
    (NoImprovementHandler.init E F p (.callable sf) .notCallable stfArg trArg md cd =
      .error (.typeError "Argument pass_function should be a function.")) ∧
    (NoImprovementHandler.init E F p (.callable sf) (.callable pf) .notCallable trArg md cd =
      .error (.typeError "Argument stop_function should be a function.")) ∧
    (NoImprovementHandler.init E F p (.callable sf) (.callable pf) (.callable stf)
        .notEngine md cd =
      .error (.typeError "Argument trainer should be an instance of Engine.")) ∧
    (p < 1 →
      NoImprovementHandler.init E F p (.callable sf) (.callable pf) (.callable stf)
          (.engine tr) md cd =
        .error (.valueError "Argument patience should be positive integer.")) ∧
    (1 ≤ p → md < 0 →
      NoImprovementHandler.init E F p (.callable sf) (.callable pf) (.callable stf)
          (.engine tr) md cd =
        .error (.valueError "Argument min_delta should not be a negative number.")) ∧
    (PyError.valueError "Argument patience should be positive integer." ≠
      PyError.valueError "Argument min_delta should not be a negative number.") ∧
    (PyError.valueError "Argument patience should be positive integer." ≠
      PyError.typeError "Argument score_function should be a function.") ∧
    (PyError.valueError "Argument min_delta should not be a negative number." ≠
      PyError.typeError "Argument score_function should be a function.") := by
  refine ⟨rfl, rfl, rfl, rfl, fun hp => ?_, fun hp hm => ?_,
    by decide, by decide, by decide⟩
  · unfold NoImprovementHandler.init
    dsimp only
    rw [if_pos hp]
  · unfold NoImprovementHandler.init
    dsimp only
    rw [if_neg (not_lt.mpr hp), if_pos hm]

/-- Witness for `init_validation` at concrete inputs, instantiating the
`min_delta = -0.1` rejection. -/
theorem init_validation_witness :
    NoImprovementHandler.init ℚ Bool 1 (.callable id) (.callable false) (.callable true)
        (.engine 0) (-1/10) false
      = .error (PyError.valueError "Argument min_delta should not be a negative number.") :=
  (init_validation ℚ Bool 1 id false true 0 (.callable false) (.callable true)
      (.engine 0) (-1/10) false).2.2.2.2.2.1 (by norm_num) (by norm_num)

/-- Claim C4: for a score exceeding the recorded best by a positive amount no
greater than `min_delta`, the counter is incremented by 1 in both modes; with
`cumulative_delta` off, `best_score` is updated to the score, while with it
on, `best_score` stays at the pre-plateau value — with no other difference. -/
theorem small_improvement_modes {E F : Type} (h : NoImprovementHandler E F)
    (best score : ℚ) (hb : h.best_score = some best) (h1 : best < score)
    (h2 : score ≤ best + h.min_delta) :
    h.updateState score =
      if h.cumulative_delta then { h with counter := h.counter + 1 }
      else { h with best_score := some score, counter := h.counter + 1 } := by
  rw [updateState_noimp h score best hb h2]
  cases hc : h.cumulative_delta with
  | false => simp [h1]
  | true => simp

/-- A concrete handler with a plateau tolerance, used to instantiate the
claim theorems. -/
def plateauHandler : NoImprovementHandler ℚ Bool :=
  { patience := 2, score_function := id, pass_function := false, stop_function := true,
    trainer := 0, counter := 0, best_score := some 1, min_delta := 1/2,
    cumulative_delta := false }

/-- Witness for `small_improvement_modes` at a concrete handler and score. -/
theorem small_improvement_modes_witness :
    plateauHandler.updateState (5/4) =
      if plateauHandler.cumulative_delta then
        { plateauHandler with counter := plateauHandler.counter + 1 }
      else
        { plateauHandler with best_score := some (5/4), counter := plateauHandler.counter + 1 } :=
  small_improvement_modes plateauHandler 1 (5/4) rfl (by norm_num)
    (by norm_num [plateauHandler])

/-- Each score in the list strictly exceeds its predecessor by more than `d`. -/
def stepIncreasing (d : ℚ) (scores : List ℚ) : Prop :=
  scores.Chain' (fun a b => a + d < b)

theorem callWithScore_pass {E F : Type} (h : NoImprovementHandler E F) (s : ℚ)
    (hlt : (h.updateState s).counter < h.patience) :
    h.callWithScore s = (h.updateState s, [Invocation.callOn h.pass_function h.trainer]) := by
  obtain ⟨hp, _, hpf, _, htr, _, _⟩ := updateState_frame h s
  unfold NoImprovementHandler.callWithScore
  dsimp only
  rw [hp, hpf, htr, if_neg (not_le.mpr hlt)]

theorem runCalls_cons {E F : Type} (h : NoImprovementHandler E F) (s : ℚ)
    (rest : List ℚ) :
    h.runCalls (s :: rest) =
      (((h.callWithScore s).1.runCalls rest).1,
       (h.callWithScore s).2 ++ ((h.callWithScore s).1.runCalls rest).2) :=
  rfl

theorem runCalls_chain {E F : Type} (scores : List ℚ) :
    ∀ (h : NoImprovementHandler E F) (best : ℚ), h.best_score = some best →
      h.counter = 0 → 1 ≤ h.patience → stepIncreasing h.min_delta (best :: scores) →
      (h.runCalls scores).1.counter = 0 ∧
      ∀ inv ∈ (h.runCalls scores).2, inv = Invocation.callOn h.pass_function h.trainer := by
  induction scores with
  | nil =>
      intro h best _ hc _ _
      exact ⟨hc, by simp [NoImprovementHandler.runCalls]⟩
  | cons s rest ih =>
      intro h best hb hc hp hchain
      rw [stepIncreasing, List.chain'_cons] at hchain
      obtain ⟨hlt, hrest⟩ := hchain
      have hstep : h.updateState s = { h with best_score := some s, counter := 0 } :=
        updateState_improve h s best hb hlt
      have hc1 : (h.updateState s).counter = 0 := by rw [hstep]
      have hb1 : (h.updateState s).best_score = some s := by rw [hstep]
      have hp1 : (h.updateState s).patience = h.patience := (updateState_frame h s).1
      have hpf1 : (h.updateState s).pass_function = h.pass_function :=
        (updateState_frame h s).2.2.1
      have htr1 : (h.updateState s).trainer = h.trainer :=
        (updateState_frame h s).2.2.2.2.1
      have hmd1 : (h.updateState s).min_delta = h.min_delta :=
        (updateState_frame h s).2.2.2.2.2.1
      have hcall := callWithScore_pass h s (by rw [hc1]; omega)
      have hih := ih (h.updateState s) s hb1 hc1 (by rw [hp1]; exact hp)
        (by rw [stepIncreasing, hmd1]; exact hrest)
      rw [runCalls_cons, hcall]
      refine ⟨hih.1, ?_⟩
      intro inv hinv
      rcases List.mem_append.mp hinv with hmem | hmem
      · simpa using List.mem_singleton.mp hmem
      · have := hih.2 inv hmem
        rw [hpf1, htr1] at this
        exact this

/-- Claim C5: whenever the incoming score strictly exceeds
`best_score + min_delta`, the counter becomes 0; consequently, starting from
a fresh handler, for every score sequence in which each score exceeds its
predecessor by more than `min_delta`, the counter is 0 after every call, and
for `patience ≥ 1` only the pass callback is ever invoked. -/
theorem counter_reset_and_increasing_runs {E F : Type} (h : NoImprovementHandler E F) :
    (∀ score best, h.best_score = some best → best + h.min_delta < score →
      (h.updateState score).counter = 0) ∧
    (h.counter = 0 → h.best_score = none → 1 ≤ h.patience →
      ∀ scores, stepIncreasing h.min_delta scores →
        (h.runCalls scores).1.counter = 0 ∧
        ∀ inv ∈ (h.runCalls scores).2,
          inv = Invocation.callOn h.pass_function h.trainer) := by
  constructor
  · intro score best hb hgt
    rw [updateState_improve h score best hb hgt]
  · intro hc hb hp scores hchain
    cases scores with
    | nil => exact ⟨hc, by simp [NoImprovementHandler.runCalls]⟩
    | cons s rest =>
        have hstep : h.updateState s = { h with best_score := some s } :=
          updateState_none h s hb
        have hc1 : (h.updateState s).counter = 0 := by rw [hstep]; exact hc
        have hb1 : (h.updateState s).best_score = some s := by rw [hstep]
        have hp1 : (h.updateState s).patience = h.patience := (updateState_frame h s).1
        have hpf1 : (h.updateState s).pass_function = h.pass_function :=
          (updateState_frame h s).2.2.1
        have htr1 : (h.updateState s).trainer = h.trainer :=
          (updateState_frame h s).2.2.2.2.1
        have hmd1 : (h.updateState s).min_delta = h.min_delta :=
          (updateState_frame h s).2.2.2.2.2.1
        have hcall := callWithScore_pass h s (by rw [hc1]; omega)
        have hih := runCalls_chain rest (h.updateState s) s hb1 hc1
          (by rw [hp1]; exact hp) (by rw [stepIncreasing, hmd1]; exact hchain)
        rw [runCalls_cons, hcall]
        refine ⟨hih.1, ?_⟩
        intro inv hinv
        rcases List.mem_append.mp hinv with hmem | hmem
        · simpa using List.mem_singleton.mp hmem
        · have := hih.2 inv hmem
          rw [hpf1, htr1] at this
          exact this

/-- A fresh concrete handler (no best score recorded yet), used to
instantiate the claim theorems. -/
def freshHandler : NoImprovementHandler ℚ Bool :=
  { patience := 3, score_function := id, pass_function := false, stop_function := true,
    trainer := 0, counter := 0, best_score := none, min_delta := 0,
    cumulative_delta := false }

/-- Witness for `counter_reset_and_increasing_runs` at a concrete handler and
a concrete strictly increasing score sequence. -/
theorem counter_reset_and_increasing_runs_witness :
    (freshHandler.runCalls [1, 2, 3]).1.counter = 0 ∧
    ∀ inv ∈ (freshHandler.runCalls [1, 2, 3]).2,
      inv = Invocation.callOn freshHandler.pass_function freshHandler.trainer :=
  (counter_reset_and_increasing_runs freshHandler).2 rfl rfl (by norm_num [freshHandler])
    [1, 2, 3] (by norm_num [stepIncreasing, freshHandler])

/-- Claim C7: with patience 3, `min_delta` 0 and `cumulative_delta` off,
feeding the score sequence [1.0, 0.9, 0.9, 0.9] to a fresh handler yields
counter values 0, 1, 2, 3 after the four successive calls; the pass callback
fires on each of the first three calls and the stop callback fires exactly
on the fourth. -/
theorem scenario_patience_three :
    (freshHandler.runCalls [1]).1.counter = 0 ∧
    (freshHandler.runCalls [1, 9/10]).1.counter = 1 ∧
    (freshHandler.runCalls [1, 9/10, 9/10]).1.counter = 2 ∧
    (freshHandler.runCalls [1, 9/10, 9/10, 9/10]).1.counter = 3 ∧
    (freshHandler.runCalls [1, 9/10, 9/10, 9/10]).2 =
      [Invocation.callOn freshHandler.pass_function freshHandler.trainer,
       Invocation.callOn freshHandler.pass_function freshHandler.trainer,
       Invocation.callOn freshHandler.pass_function freshHandler.trainer,
       Invocation.callOn freshHandler.stop_function freshHandler.trainer] := by
  norm_num [freshHandler, NoImprovementHandler.runCalls,
    NoImprovementHandler.callWithScore, NoImprovementHandler.updateState]

/-- Claim C9: the persisted state exposes exactly the two fields `counter`
and `best_score`; restore requires both keys to be present, and with both
present it overwrites the in-memory `counter` and `best_score` verbatim with
the provided values, performing no validation of their ranges. -/
theorem state_dict_interface {E F : Type} (h : NoImprovementHandler E F) :
    h.state_dict = { counter := h.counter, best_score := h.best_score } ∧
    (∀ s : StateDict, s = { counter := s.counter, best_score := s.best_score }) ∧
    (∀ b, h.load_state_dict { counter := none, best_score := b } =
      .error (.valueError
        "Required state attribute counter is absent in provided state_dict")) ∧
    (∀ c, h.load_state_dict { counter := some c, best_score := none } =
      .error (.valueError
        "Required state attribute best_score is absent in provided state_dict")) ∧
    (∀ c b, h.load_state_dict { counter := some c, best_score := some b } =
      .ok { h with counter := c, best_score := b }) :=
  ⟨rfl, fun _ => rfl, fun _ => rfl, fun _ => rfl, fun _ _ => rfl⟩

/-- Claim C6: saving state via `state_dict` and restoring it via
`load_state_dict` into a fresh handler of the same configuration reproduces
the original `counter` and `best_score` exactly, and the two handlers then
produce identical callback invocations on every subsequent call, for every
fixed follow-up score sequence. -/
theorem state_roundtrip {E F : Type} (h h₀ : NoImprovementHandler E F)
    (hpat : h₀.patience = h.patience) (hsf : h₀.score_function = h.score_function)
    (hpf : h₀.pass_function = h.pass_function)
    (hstf : h₀.stop_function = h.stop_function) (htr : h₀.trainer = h.trainer)
    (hmd : h₀.min_delta = h.min_delta) (hcd : h₀.cumulative_delta = h.cumulative_delta)
    (hcnt : h₀.counter = 0) (hbs : h₀.best_score = none) :
    ∃ h', h₀.load_state_dict h.state_dict.toMapping = .ok h' ∧
      h'.counter = h.counter ∧ h'.best_score = h.best_score ∧
      ∀ scores, (h'.runCalls scores).2 = (h.runCalls scores).2 := by
  refine ⟨{ h₀ with counter := h.counter, best_score := h.best_score }, rfl, rfl, rfl, ?_⟩
  have heq : ({ h₀ with counter := h.counter, best_score := h.best_score } :
      NoImprovementHandler E F) = h := by
    cases h
    cases h₀
    simp_all
  rw [heq]
  intro scores
  rfl

/-- The handler state of the round-trip example in the spec: counter 3 and best
score −0.5. -/
def savedHandler : NoImprovementHandler ℚ Bool :=
  { patience := 3, score_function := id, pass_function := false, stop_function := true,
    trainer := 0, counter := 3, best_score := some (-1/2), min_delta := 0,
    cumulative_delta := false }

/-- Witness for `state_roundtrip`: restoring the saved state
(counter 3, best −0.5) into a fresh handler of the same configuration. -/
theorem state_roundtrip_witness :
    ∃ h', freshHandler.load_state_dict savedHandler.state_dict.toMapping = .ok h' ∧
      h'.counter = savedHandler.counter ∧ h'.best_score = savedHandler.best_score ∧
      ∀ scores, (h'.runCalls scores).2 = (savedHandler.runCalls scores).2 :=
  state_roundtrip savedHandler freshHandler rfl rfl rfl rfl rfl rfl rfl rfl rfl

/-! ### The `EarlyStopping` specialization -/

/-- The two callbacks the `EarlyStopping` subclass injects into the base
constructor: its own (bound) `pass_function` and `stop_function` methods. -/
inductive ESCallback where
  | passFn
  | stopFn
deriving DecidableEq, Repr

/-- Modelled from the spec: the controlled-context (`Engine`) object, defined
in `ignite.engine` outside the provided sources, exposes a `terminate`
operation that requests termination of the run; only the flag that operation
sets is recorded here. -/
structure ESEngine where
  terminated : Bool
deriving DecidableEq, Repr

/-- The effect of running an `EarlyStopping` callback on a trainer:
`pass_function` does nothing, while `stop_function` logs
"EarlyStopping: Stop training" at info level and calls
`trainer.terminate()`.  Returns the trainer afterwards together with the
log messages emitted. -/
def ESCallback.run : ESCallback → ESEngine → ESEngine × List String
  | .passFn, t => (t, [])
  | .stopFn, t => ({ t with terminated := true }, ["EarlyStopping: Stop training"])

/-- The logger name `setup_logger(__name__ + "." + self.__class__.__name__)`
resolves to for this class. -/
def esLoggerName : String := "ignite.handlers.early_stopping.EarlyStopping"

/-- The state of an `EarlyStopping` handler: the inherited
`NoImprovementHandler` state plus the logger handle. -/
structure EarlyStopping (E : Type) where
  base : NoImprovementHandler E ESCallback
  logger : String

/-- Constructor `EarlyStopping.__init__`: delegate to the base constructor with the two
callbacks fixed to the subclass methods, then attach the logger. -/
def EarlyStopping.init (E : Type) (patience : ℤ) (score_function : PyValue (E → ℚ))
    (trainer : PyTrainerArg E) (min_delta : ℚ) (cumulative_delta : Bool) :
    Except PyError (EarlyStopping E) :=
  (NoImprovementHandler.init E ESCallback patience score_function
      (.callable .passFn) (.callable .stopFn) trainer min_delta cumulative_delta).map
    (fun h => { base := h, logger := esLoggerName })

/-- Method `EarlyStopping.__call__`: delegates to the inherited `__call__`. -/
def EarlyStopping.call {E : Type} (es : EarlyStopping E) (engine : E) :
    EarlyStopping E × List (Invocation E ESCallback) :=
  ({ base := (es.base.call engine).1, logger := es.logger }, (es.base.call engine).2)

theorem init_ok_fields {E F : Type} (p : ℤ) (sfArg : PyValue (E → ℚ))
    (pfArg stfArg : PyValue F) (trArg : PyTrainerArg E) (md : ℚ) (cd : Bool)
    (h : NoImprovementHandler E F)
    (hok : NoImprovementHandler.init E F p sfArg pfArg stfArg trArg md cd = .ok h) :
    pfArg = .callable h.pass_function ∧ stfArg = .callable h.stop_function ∧
    h.counter = 0 ∧ h.best_score = none ∧ h.patience = p ∧ h.min_delta = md ∧
    h.cumulative_delta = cd := by
  cases sfArg with
  | notCallable => simp [NoImprovementHandler.init] at hok
  | callable sf =>
    cases pfArg with
    | notCallable => simp [NoImprovementHandler.init] at hok
    | callable pf =>
      cases stfArg with
      | notCallable => simp [NoImprovementHandler.init] at hok
      | callable stf =>
        cases trArg with
        | notEngine => simp [NoImprovementHandler.init] at hok
        | engine tr =>
          unfold NoImprovementHandler.init at hok
          dsimp only at hok
          split_ifs at hok
          injection hok with hok
          subst hok
          exact ⟨rfl, rfl, rfl, rfl, rfl, rfl, rfl⟩

/-- Claim C8: `EarlyStopping` fixes the continue callback to a no-op and the
limit-reached callback to logging an informational message and calling
`terminate()` on the controlled trainer; its constructor delegates to
the base constructor (inheriting the validation and the comparison and
decision rules unchanged), a successfully constructed instance carries
exactly the two fixed callbacks plus the logger handle, and its `__call__`
delegates to the inherited one, leaving the logger untouched. -/
theorem earlyStopping_specialization (E : Type) :
    (∀ (p : ℤ) (sf : PyValue (E → ℚ)) (tr : PyTrainerArg E) (md : ℚ) (cd : Bool),
      EarlyStopping.init E p sf tr md cd =
        (NoImprovementHandler.init E ESCallback p sf (.callable .passFn)
            (.callable .stopFn) tr md cd).map
          (fun h => { base := h, logger := esLoggerName })) ∧
    (∀ (p : ℤ) (sf : PyValue (E → ℚ)) (tr : PyTrainerArg E) (md : ℚ) (cd : Bool)
        (es : EarlyStopping E), EarlyStopping.init E p sf tr md cd = .ok es →
      es.base.pass_function = .passFn ∧ es.base.stop_function = .stopFn ∧
      es.logger = esLoggerName) ∧
    (∀ t, ESCallback.passFn.run t = (t, [])) ∧
    (∀ t, ESCallback.stopFn.run t =
      ({ t with terminated := true }, ["EarlyStopping: Stop training"])) ∧
    (∀ (es : EarlyStopping E) (engine : E),
      es.call engine =
        ({ base := (es.base.call engine).1, logger := es.logger },
         (es.base.call engine).2)) := by
  refine ⟨fun _ _ _ _ _ => rfl, ?_, fun _ => rfl, fun _ => rfl, fun _ _ => rfl⟩
  intro p sf tr md cd es hok
  unfold EarlyStopping.init at hok
  cases hres : NoImprovementHandler.init E ESCallback p sf (.callable .passFn)
      (.callable .stopFn) tr md cd with
  | error e => rw [hres] at hok; simp [Except.map] at hok
  | ok hb =>
    rw [hres] at hok
    simp only [Except.map, Except.ok.injEq] at hok
    obtain ⟨hpf, hstf, _, _, _, _, _⟩ := init_ok_fields p sf (.callable .passFn)
      (.callable .stopFn) tr md cd hb hres
    subst hok
    refine ⟨?_, ?_, rfl⟩
    · injection hpf with hpf
      exact hpf.symm
    · injection hstf with hstf
      exact hstf.symm

/-- A concrete, successfully constructed `EarlyStopping` instance. -/
def sampleES : EarlyStopping ℚ :=
  { base := { patience := 3, score_function := id, pass_function := .passFn,
              stop_function := .stopFn, trainer := 0, counter := 0, best_score := none,
              min_delta := 0, cumulative_delta := false },
    logger := esLoggerName }

/-- Witness for `earlyStopping_specialization` at a concrete construction. -/
theorem earlyStopping_specialization_witness :
    sampleES.base.pass_function = ESCallback.passFn ∧
    sampleES.base.stop_function = ESCallback.stopFn ∧
    sampleES.logger = esLoggerName :=
  (earlyStopping_specialization ℚ).2.1 3 (.callable id) (.engine 0) 0 false sampleES rfl

end Ignite
